import Mathlib

/-!
Shallow embedding of `speedfan2influx.py` (SpeedFan → InfluxDB importer).

Strings are modelled as `List Char`; Python runtime errors (`ValueError`,
`KeyError`, `NameError`) are modelled by an explicit error type and
fallible steps return `Except`.  Timestamps are modelled as integer
seconds in the host's (fixed-offset) local timezone, with the epoch at
local midnight, so the calendar date of an instant `t` is `Int.fdiv t 86400`
and the instant at midnight of day `d` is `d * 86400`.  Floating point
values are modelled symbolically by their validated literal text; only
success/failure of the coercion matters to the properties below.
External collaborators (the filesystem glob, the CSV reader, the InfluxDB
client) are modelled at their data boundaries: a log file is its
filename-embedded base date plus its rows (each row a column-name → cell
map), and the watermark query result is the list of per-series last
timestamps returned for this host.
-/

deriving instance DecidableEq for Except

/-- Coerce a Lean string literal to the `List Char` representation. -/
def chars (s : String) : List Char := s.data

/-- Python `str.strip()`: drop whitespace from both ends. -/
def pyStrip (l : List Char) : List Char :=
  ((l.dropWhile Char.isWhitespace).reverse.dropWhile Char.isWhitespace).reverse

/-- Python `str.replace('xxx', '')` as in `_parse_metric_block` line 125:
delete every non-overlapping occurrence of `xxx`, scanning left to right. -/
def removeXxx : List Char → List Char
  | 'x' :: 'x' :: 'x' :: t => removeXxx t
  | c :: t => c :: removeXxx t
  | [] => []

/-- Push a character onto the first part of a split result. -/
def consHead (a : Char) : List (List Char) → List (List Char)
  | [] => [[a]]
  | p :: r => (a :: p) :: r

/-- Python `str.split(c)` for a single-character separator (keeps empty parts). -/
def splitCh (c : Char) : List Char → List (List Char)
  | [] => [[]]
  | a :: t => if a = c then [] :: splitCh c t else consHead a (splitCh c t)

/-- Python `str.split(' from ')` as used on a block's header line:
split on the six-character separator, leftmost non-overlapping occurrences. -/
def splitFrom : List Char → List (List Char)
  | ' ' :: 'f' :: 'r' :: 'o' :: 'm' :: ' ' :: t => [] :: splitFrom t
  | c :: t => consHead c (splitFrom t)
  | [] => [[]]

/-- Decide whether `pat` occurs at the start of the second list. -/
def isPre : List Char → List Char → Bool
  | [], _ => true
  | _ :: _, [] => false
  | a :: x, b :: y => a = b && isPre x y

/-- Decide whether `pat` occurs anywhere as a contiguous substring. -/
def occursIn (pat : List Char) : List Char → Bool
  | [] => pat.isEmpty
  | c :: t => isPre pat (c :: t) || occursIn pat t

/-- Nonempty and all decimal digits. -/
def isDigits (l : List Char) : Bool := !l.isEmpty && l.all (fun c => c.isDigit)

/-- Numeric value of a digit string. -/
def digitsToNat (l : List Char) : Nat :=
  l.foldl (fun a c => a * 10 + (c.toNat - '0'.toNat)) 0

/-- Python `int(str)`: strip whitespace, optional sign, then decimal digits;
`none` models the `ValueError` raise. -/
def pyInt (s : List Char) : Option Int :=
  match pyStrip s with
  | '+' :: ds => if isDigits ds then some (digitsToNat ds : Int) else none
  | '-' :: ds => if isDigits ds then some (-(digitsToNat ds : Int)) else none
  | ds => if isDigits ds then some (digitsToNat ds : Int) else none

/-- Drop one leading sign character. -/
def dropSign : List Char → List Char
  | '+' :: t => t
  | '-' :: t => t
  | t => t

/-- Unsigned mantissa: digits with at most one dot and at least one digit. -/
def mantOk (l : List Char) : Bool :=
  match splitCh '.' l with
  | [a] => isDigits a
  | [a, b] =>
      (!a.isEmpty || !b.isEmpty) && a.all (fun c => c.isDigit) && b.all (fun c => c.isDigit)
  | _ => false

/-- Exponent part: optional sign then digits. -/
def expOk (l : List Char) : Bool := isDigits (dropSign l)

/-- Acceptance of Python `float(str)` for finite decimal literals
(strip, optional sign, mantissa, optional exponent). -/
def pyFloatValid (s : List Char) : Bool :=
  match splitCh 'e' ((pyStrip s).map Char.toLower |> dropSign) with
  | [m] => mantOk m
  | [m, e] => mantOk m && expOk e
  | _ => false

/-- A Python value as produced by the config value-coercion policy. -/
inductive PyVal where
  | bool (b : Bool)
  | int (n : Int)
  | str (s : List Char)

deriving DecidableEq, Inhabited

/-- A Python runtime error as raised by the importer's code paths. -/
inductive PyError where
  | valueError (msg : List Char)
  | keyError (key : PyVal)
  | nameError (name : List Char)

deriving DecidableEq

/-- Python dict lookup `d[k]` on an insertion-ordered association list. -/
def dictLookup {α β : Type} [DecidableEq α] (k : α) : List (α × β) → Option β
  | [] => none
  | (k', v) :: t => if k' = k then some v else dictLookup k t

/-- Python dict assignment `d[k] = v`: replace in place or append. -/
def dictInsert {α β : Type} [DecidableEq α] (k : α) (v : β) : List (α × β) → List (α × β)
  | [] => [(k, v)]
  | (k', v') :: t => if k' = k then (k, v) :: t else (k', v') :: dictInsert k v t

/-- Keys of an association list, in order. -/
def dictKeys {α β : Type} (d : List (α × β)) : List α := d.map Prod.fst

/-- Python truthiness of the values occurring in config params. -/
def pyTruthy : PyVal → Bool
  | .bool b => b
  | .int n => n != 0
  | .str s => !s.isEmpty

/-- Message of the `ValueError` Python raises when unpacking one value into two. -/
def msgNotEnough : List Char := chars "not enough values to unpack (expected 2, got 1)"

/-- Message of the `ValueError` Python raises when unpacking three or more values into two. -/
def msgTooMany : List Char := chars "too many values to unpack (expected 2)"

/-- Message of the `ValueError` Python raises from `int()` on a bad literal. -/
def msgIntErr (s : List Char) : List Char :=
  chars "invalid literal for int() with base 10: '" ++ s ++ chars "'"

/-- Message of the `ValueError` Python raises from `float()` on a bad literal. -/
def msgFloatErr (s : List Char) : List Char :=
  chars "could not convert string to float: '" ++ s ++ chars "'"

/-- Python tuple unpacking `a, b = parts` of a split result. -/
def unpack2 (ps : List (List Char)) : Except PyError (List Char × List Char) :=
  match ps with
  | [a, b] => .ok (a, b)
  | [_] => .error (.valueError msgNotEnough)
  | [] => .error (.valueError (chars "not enough values to unpack (expected 2, got 0)"))
  | _ => .error (.valueError msgTooMany)

/-- Value coercion of `_parse_metric_block` lines 134-142: literal `true`/`false`
to booleans, else attempt `int`, else keep the string. -/
def coerceVal (v : List Char) : PyVal :=
  if v = chars "true" then .bool true
  else if v = chars "false" then .bool false
  else
    match pyInt v with
    | some n => .int n
    | none => .str v

/-- The `key, value = param.split('=')` loop of `_parse_metric_block`
lines 131-143, building the params dict. -/
def parseParams : List (List Char) → List (List Char × PyVal) →
    Except PyError (List (List Char × PyVal))
  | [], d => .ok d
  | p :: rest, d =>
    match unpack2 (splitCh '=' p) with
    | .error e => .error e
    | .ok (k, v) => parseParams rest (dictInsert k (coerceVal v) d)

/-- Result of `_parse_metric_block`: the tuple `(source, metric_type, index, params)`. -/
structure PBlock where
  source : List Char
  mtype : List Char
  index : Int
  params : List (List Char × PyVal)

deriving DecidableEq

/-- `SpeedFan._parse_metric_block` (lines 123-144): remove the `xxx` markers,
strip, split into lines; split the header line on the literal separator
and unpack; split kind-and-index on a space and unpack; parse the index
as an integer; then parse the `key=value` param lines. -/
def parse_metric_block (block : List Char) : Except PyError PBlock :=
  match unpack2 (splitFrom ((splitCh '\n' (pyStrip (removeXxx block))).headD [])) with
  | .error e => .error e
  | .ok (metricIndex, source) =>
    match unpack2 (splitCh ' ' metricIndex) with
    | .error e => .error e
    | .ok (mtype, idxStr) =>
      match pyInt idxStr with
      | none => .error (.valueError (msgIntErr idxStr))
      | some idx =>
        match parseParams (splitCh '\n' (pyStrip (removeXxx block))).tail [] with
        | .error e => .error e
        | .ok ps => .ok ⟨source, mtype, idx, ps⟩

/-- Which Python builtin a metric uses to coerce log cells
(the `'function'` entry of the metric dict: `float` or `int`). -/
inductive MetricFn where
  | toFloat
  | toInt

deriving DecidableEq, Inhabited

/-- One metric dict as built in `_get_metrics` (lines 164-207).  The Python
dicts carry different keys per kind; absent keys are `none` here.  The
`'type'` entry is named `mtype`. -/
structure Metric where
  mtype : List Char
  function : MetricFn
  chipset : List Char
  metric : PyVal
  index : Int
  units : Option (List Char)
  hostname : List Char
  wanted : Option PyVal
  warning : Option PyVal
  offset : Option PyVal
  used_pwms : Option PyVal
  minimum : Option PyVal
  maximum : Option PyVal
  variate : Option PyVal

deriving DecidableEq, Inhabited

/-- Python dict access `params[k]`, raising `KeyError` when absent. -/
def getKey (d : List (List Char × PyVal)) (k : List Char) : Except PyError PyVal :=
  match dictLookup k d with
  | some v => .ok v
  | none => .error (.keyError (.str k))

/-- The kind dispatch of `_get_metrics` lines 164-207: build the metric dict
for a recognized kind label (param lookups in the evaluation order of the
Python dict literals), or `none` when the label matches no branch — the
source has no `else` branch there. -/
def mkMetricOpt (tU hn : List Char) (source mt : List Char) (idx : Int) (nameV : PyVal)
    (params : List (List Char × PyVal)) : Except PyError (Option Metric) :=
  if mt = chars "Temp" then
    match getKey params (chars "wanted") with
    | .error e => .error e
    | .ok w =>
      match getKey params (chars "warning") with
      | .error e => .error e
      | .ok wa =>
        match getKey params (chars "offset") with
        | .error e => .error e
        | .ok o =>
          match getKey params (chars "UsedPwms") with
          | .error e => .error e
          | .ok u =>
            .ok (some
              { mtype := chars "temp", function := .toFloat, chipset := source,
                metric := nameV, index := idx, units := some tU, hostname := hn,
                wanted := some w, warning := some wa, offset := some o,
                used_pwms := some u, minimum := none, maximum := none, variate := none })
  else if mt = chars "Pwm" then
    match getKey params (chars "minimum") with
    | .error e => .error e
    | .ok mi =>
      match getKey params (chars "maximum") with
      | .error e => .error e
      | .ok ma =>
        match getKey params (chars "variate") with
        | .error e => .error e
        | .ok va =>
          .ok (some
            { mtype := chars "pwm", function := .toFloat, chipset := source,
              metric := nameV, index := idx, units := none, hostname := hn,
              wanted := none, warning := none, offset := none, used_pwms := none,
              minimum := some mi, maximum := some ma, variate := some va })
  else if mt = chars "Fan" then
    .ok (some
      { mtype := chars "fan", function := .toInt, chipset := source,
        metric := nameV, index := idx, units := none, hostname := hn,
        wanted := none, warning := none, offset := none, used_pwms := none,
        minimum := none, maximum := none, variate := none })
  else if mt = chars "Volt" then
    .ok (some
      { mtype := chars "volt", function := .toFloat, chipset := source,
        metric := nameV, index := idx, units := none, hostname := hn,
        wanted := none, warning := none, offset := none, used_pwms := none,
        minimum := none, maximum := none, variate := none })
  else
    .ok none

/-- State threaded through the `_get_metrics` loop: `self.header`,
`self.metrics`, and the local variable `metric` — which Python keeps
across loop iterations, so it holds the previous block's dict when the
current block's kind label matches no branch. -/
structure GMState where
  header : List PyVal
  metrics : List (PyVal × Metric)
  metricVar : Option Metric

deriving DecidableEq

/-- One iteration of the `_get_metrics` loop body (lines 150-209) on an
already-parsed block: check `params['active'] and params['logged']`
(short-circuit, `KeyError` on missing keys), look up `params['name']`,
append it to the header, run the kind dispatch, then execute
`self.metrics[name] = metric` with the current value of the loop-local
`metric` variable (`NameError` when it was never assigned). -/
def processBlock (tU hn : List Char) (st : GMState) (pb : PBlock) : Except PyError GMState :=
  match getKey pb.params (chars "active") with
  | .error e => .error e
  | .ok a =>
    if pyTruthy a then
      match getKey pb.params (chars "logged") with
      | .error e => .error e
      | .ok lg =>
        if pyTruthy lg then
          match getKey pb.params (chars "name") with
          | .error e => .error e
          | .ok nameV =>
            match mkMetricOpt tU hn pb.source pb.mtype pb.index nameV pb.params with
            | .error e => .error e
            | .ok mOpt =>
              match (match mOpt with | some m => some m | none => st.metricVar) with
              | none => .error (.nameError (chars "metric"))
              | some m =>
                .ok ⟨st.header ++ [nameV], dictInsert nameV m st.metrics, some m⟩
        else .ok st
    else .ok st

/-- Fold of `processBlock` over a list of parsed blocks. -/
def foldGM (tU hn : List Char) (st : GMState) : List PBlock → Except PyError GMState
  | [] => .ok st
  | pb :: rest =>
    match processBlock tU hn st pb with
    | .error e => .error e
    | .ok st' => foldGM tU hn st' rest

/-- Initial catalog state: `self.header = ['Seconds']` (line 106),
empty metrics dict, loop variable unassigned. -/
def initGM : GMState := ⟨[.str (chars "Seconds")], [], none⟩

/-- `_get_metrics` on a sequence of already-parsed blocks. -/
def getMetricsParsed (tU hn : List Char) (pbs : List PBlock) : Except PyError GMState :=
  foldGM tU hn initGM pbs

/-- Fold of the full `_get_metrics` loop over raw block strings, including
the `if not block: continue` empty-block skip (lines 151-152). -/
def foldRaw (tU hn : List Char) (st : GMState) : List (List Char) → Except PyError GMState
  | [] => .ok st
  | b :: rest =>
    if b.isEmpty then foldRaw tU hn st rest
    else
      match parse_metric_block b with
      | .error e => .error e
      | .ok pb =>
        match processBlock tU hn st pb with
        | .error e => .error e
        | .ok st' => foldRaw tU hn st' rest

/-- `SpeedFan._get_metrics` (lines 146-209) on the raw block strings obtained
from the sensor-config file splitting. -/
def getMetricsRaw (tU hn : List Char) (bs : List (List Char)) : Except PyError GMState :=
  foldRaw tU hn initGM bs

/-- `SpeedFan.find_last` (lines 211-220): starting from `arrow.get(0)` (the
epoch), take the per-series last timestamps returned by the store for this
host (series with no rows for the host do not appear in the result) and
keep the larger at each step (`if last < series_last: last = series_last`).
Timestamps are integer seconds. -/
def find_last (seriesLasts : List Int) : Int :=
  seriesLasts.foldl (fun last s => if last < s then s else last) 0

/-- A coerced log cell: `int(...)` result, or a `float(...)` result kept
symbolically as its validated literal text. -/
inductive CellValue where
  | ival (n : Int)
  | fval (lit : List Char)

deriving DecidableEq

/-- One emitted InfluxDB point, as constructed by the `SeriesHelper` calls in
`parse_logs` (lines 252-297): series name, base tags, value, timestamp
(integer seconds), and the kind-specific extra tags in keyword order. -/
structure Point where
  series : List Char
  host : List Char
  chipset : List Char
  index : Int
  metric : PyVal
  value : CellValue
  time : Int
  extra : List (List Char × PyVal)

deriving DecidableEq

/-- A log file at the ingestion boundary: the calendar day embedded in its
filename (`basename(logfile)[5:13]` parsed as a date, here a day number in
the local timezone) and its rows as produced by the CSV `DictReader`
(column name → cell text). -/
structure LogFile where
  date : Int
  rows : List (List (PyVal × List Char))

deriving DecidableEq

/-- `self.metrics[name]['function'](log[name])`: apply the metric's coercion
to a cell, modelling the `ValueError` of `int`/`float` on bad literals. -/
def coerceCell (fn : MetricFn) (cell : List Char) : Except PyError CellValue :=
  match fn with
  | .toInt =>
    match pyInt cell with
    | some n => .ok (.ival n)
    | none => .error (.valueError (msgIntErr cell))
  | .toFloat =>
    if pyFloatValid cell then .ok (.fval cell) else .error (.valueError (msgFloatErr cell))

/-- Metric dict access used when building a point's tags; missing keys raise
`KeyError`. -/
def getMF (o : Option PyVal) (k : List Char) : Except PyError PyVal :=
  match o with
  | some v => .ok v
  | none => .error (.keyError (.str k))

/-- The `if/elif` dispatch on `self.metrics[name]['type']` (lines 252-297):
construct one point of the matching series with the metric's tags, or
nothing at all when the type string matches no branch (there is no `else`). -/
def emitPoint (tU : List Char) (m : Metric) (v : CellValue) (ts : Int) :
    Except PyError (List Point) :=
  if m.mtype = chars "temp" then
    match getMF m.wanted (chars "wanted") with
    | .error e => .error e
    | .ok w =>
      match getMF m.warning (chars "warning") with
      | .error e => .error e
      | .ok wa =>
        match getMF m.offset (chars "offset") with
        | .error e => .error e
        | .ok o =>
          match getMF m.used_pwms (chars "used_pwms") with
          | .error e => .error e
          | .ok u =>
            .ok [{ series := tU, host := m.hostname, chipset := m.chipset,
                   index := m.index, metric := m.metric, value := v, time := ts,
                   extra := [(chars "wanted", w), (chars "warning", wa),
                             (chars "offset", o), (chars "used_pwms", u)] }]
  else if m.mtype = chars "pwm" then
    match getMF m.minimum (chars "minimum") with
    | .error e => .error e
    | .ok mi =>
      match getMF m.maximum (chars "maximum") with
      | .error e => .error e
      | .ok ma =>
        match getMF m.variate (chars "variate") with
        | .error e => .error e
        | .ok va =>
          .ok [{ series := chars "%", host := m.hostname, chipset := m.chipset,
                 index := m.index, metric := m.metric, value := v, time := ts,
                 extra := [(chars "minimum", mi), (chars "maximum", ma),
                           (chars "variate", va)] }]
  else if m.mtype = chars "fan" then
    .ok [{ series := chars "RPM", host := m.hostname, chipset := m.chipset,
           index := m.index, metric := m.metric, value := v, time := ts, extra := [] }]
  else if m.mtype = chars "volt" then
    .ok [{ series := chars "V", host := m.hostname, chipset := m.chipset,
           index := m.index, metric := m.metric, value := v, time := ts, extra := [] }]
  else .ok []

/-- The `for name in self.header[1:]` loop of one surviving row (lines
249-297): look up the metric and the cell (`KeyError` on a missing key),
coerce the cell, and emit the point. -/
def processCells (tU : List Char) (ms : List (PyVal × Metric))
    (row : List (PyVal × List Char)) (ts : Int) :
    List PyVal → Except PyError (List Point)
  | [] => .ok []
  | n :: rest =>
    match dictLookup n ms with
    | none => .error (.keyError n)
    | some m =>
      match dictLookup n row with
      | none => .error (.keyError n)
      | some cell =>
        match coerceCell m.function cell with
        | .error e => .error e
        | .ok v =>
          match emitPoint tU m v ts with
          | .error e => .error e
          | .ok ps =>
            match processCells tU ms row ts rest with
            | .error e => .error e
            | .ok qs => .ok (ps ++ qs)

/-- One row of the `for log in logs` loop (lines 244-297): reconstruct the
absolute timestamp `logtime.shift(seconds=int(log['Seconds']))`, skip the
row when `timestamp < last`, else process the header columns. -/
def processRow (tU : List Char) (hdr : List PyVal) (ms : List (PyVal × Metric))
    (last : Int) (fdate : Int) (row : List (PyVal × List Char)) :
    Except PyError (List Point) :=
  match dictLookup (PyVal.str (chars "Seconds")) row with
  | none => .error (.keyError (.str (chars "Seconds")))
  | some sstr =>
    match pyInt sstr with
    | none => .error (.valueError (msgIntErr sstr))
    | some secs =>
      let ts := fdate * 86400 + secs
      if ts < last then .ok []
      else processCells tU ms row ts hdr.tail

/-- All rows of one log file, in order. -/
def processRows (tU : List Char) (hdr : List PyVal) (ms : List (PyVal × Metric))
    (last : Int) (fdate : Int) : List (List (PyVal × List Char)) →
    Except PyError (List Point)
  | [] => .ok []
  | row :: rest =>
    match processRow tU hdr ms last fdate row with
    | .error e => .error e
    | .ok ps =>
      match processRows tU hdr ms last fdate rest with
      | .error e => .error e
      | .ok qs => .ok (ps ++ qs)

/-- The row loop of one non-skipped log file. -/
def processFile (tU : List Char) (hdr : List PyVal) (ms : List (PyVal × Metric))
    (last : Int) (f : LogFile) : Except PyError (List Point) :=
  processRows tU hdr ms last f.date f.rows

/-- `SpeedFan.parse_logs` (lines 222-297) with the watermark already
resolved: for each log file, skip it entirely when
`logtime.date() < last.date()` (calendar-date comparison: the file's day
number against `Int.fdiv last 86400`), otherwise run the row loop.  The
emitted points are collected in file, row, and header-column order. -/
def parse_logs (tU : List Char) (hdr : List PyVal) (ms : List (PyVal × Metric))
    (last : Int) : List LogFile → Except PyError (List Point)
  | [] => .ok []
  | f :: rest =>
    if f.date < Int.fdiv last 86400 then parse_logs tU hdr ms last rest
    else
      match processFile tU hdr ms last f with
      | .error e => .error e
      | .ok ps =>
        match parse_logs tU hdr ms last rest with
        | .error e => .error e
        | .ok qs => .ok (ps ++ qs)

/-- Shared fixture: a header `['Seconds', 'A']` as built by the catalog. -/
def fxHdr : List PyVal := [.str (chars "Seconds"), .str (chars "A")]

/-- Shared fixture: a temperature metric named `A` (as `_get_metrics` builds
for block `Temp 0 from c` with `wanted=50, warning=80, offset=0, UsedPwms=0`). -/
def fxMetric : Metric :=
  { mtype := chars "temp", function := .toFloat, chipset := chars "c",
    metric := .str (chars "A"), index := 0, units := some (chars "°C"),
    hostname := chars "h", wanted := some (.int 50), warning := some (.int 80),
    offset := some (.int 0), used_pwms := some (.int 0),
    minimum := none, maximum := none, variate := none }

/-- Shared fixture: the metrics catalog holding only `A`. -/
def fxMs : List (PyVal × Metric) := [(.str (chars "A"), fxMetric)]

/-- A log file dated 2024-01-01 (day 19723 since the epoch) whose single row
is at elapsed seconds 10, the scenario of the spec's concrete example. -/
def c1file : LogFile :=
  ⟨19723, [[(.str (chars "Seconds"), chars "10"), (.str (chars "A"), chars "45.2")]]⟩

/-- The watermark instant 2024-01-01T00:00:10, exactly the row's timestamp. -/
def c1last : Int := 19723 * 86400 + 10

/-- The point the code emits for that row. -/
def c1point : Point :=
  { series := chars "°C", host := chars "h", chipset := chars "c", index := 0,
    metric := .str (chars "A"), value := .fval (chars "45.2"), time := c1last,
    extra := [(chars "wanted", .int 50), (chars "warning", .int 80),
              (chars "offset", .int 0), (chars "used_pwms", .int 0)] }

/-- A log file dated day 0 with a single row at elapsed seconds 5. -/
def c2file : LogFile :=
  ⟨0, [[(.str (chars "Seconds"), chars "5"), (.str (chars "A"), chars "2.0")]]⟩

/-- The point the first run emits from `c2file` with the epoch watermark. -/
def c2point : Point :=
  { series := chars "°C", host := chars "h", chipset := chars "c", index := 0,
    metric := .str (chars "A"), value := .fval (chars "2.0"), time := 5,
    extra := [(chars "wanted", .int 50), (chars "warning", .int 80),
              (chars "offset", .int 0), (chars "used_pwms", .int 0)] }

/-- A log file dated day 0 with one row at elapsed seconds 5. -/
def c3file : LogFile :=
  ⟨0, [[(.str (chars "Seconds"), chars "5"), (.str (chars "A"), chars "1.5")]]⟩

/-- The point emitted from `c3file` under watermark 3 (same calendar date). -/
def c3point : Point :=
  { series := chars "°C", host := chars "h", chipset := chars "c", index := 0,
    metric := .str (chars "A"), value := .fval (chars "1.5"), time := 5,
    extra := [(chars "wanted", .int 50), (chars "warning", .int 80),
              (chars "offset", .int 0), (chars "used_pwms", .int 0)] }

/-- A log file dated day 1 whose only row is malformed (non-numeric seconds). -/
def c3old : LogFile := ⟨1, [[(.str (chars "Seconds"), chars "zz")]]⟩

/-- A config block whose first line `Temp 0` lacks the ` from ` separator. -/
def c5block : List Char := chars "Temp 0\nactive=true"

/-- A well-formed active and logged temperature block named `A`. -/
def c6b1 : List Char :=
  chars "Temp 0 from chipA\nactive=true\nlogged=true\nname=A\nwanted=50\nwarning=80\noffset=0\nUsedPwms=0"

/-- An active and logged block named `B` whose kind label `Gpu` is not one
of `Temp`, `Pwm`, `Fan`, `Volt`. -/
def c6b2 : List Char := chars "Gpu 1 from chipB\nactive=true\nlogged=true\nname=B"

/-- The temperature metric built from `c6b1`. -/
def c6metric : Metric :=
  { mtype := chars "temp", function := .toFloat, chipset := chars "chipA",
    metric := .str (chars "A"), index := 0, units := some (chars "°C"),
    hostname := chars "h", wanted := some (.int 50), warning := some (.int 80),
    offset := some (.int 0), used_pwms := some (.int 0),
    minimum := none, maximum := none, variate := none }

/-- A parsed block is included in the catalog when both `active` and
`logged` are present and truthy (the code's `params['active'] and
params['logged']` test). -/
def includedB (pb : PBlock) : Bool :=
  (match dictLookup (chars "active") pb.params with
   | some a => pyTruthy a
   | none => false) &&
  (match dictLookup (chars "logged") pb.params with
   | some lg => pyTruthy lg
   | none => false)

/-- The `params['name']` of a block (defaulting only to make it total). -/
def nameOf (pb : PBlock) : PyVal :=
  (dictLookup (chars "name") pb.params).getD (.str [])

/-- The metric the kind dispatch builds for a block (defaulting only to
make it total; well-formed included blocks always hit the `.ok some`). -/
def metricOfD (tU hn : List Char) (pb : PBlock) : Metric :=
  match mkMetricOpt tU hn pb.source pb.mtype pb.index (nameOf pb) pb.params with
  | .ok (some m) => m
  | _ => default

/-- The catalog entry an included block contributes: its name mapped to its
own block's metric. -/
def catEntry (tU hn : List Char) (pb : PBlock) : PyVal × Metric :=
  (nameOf pb, metricOfD tU hn pb)

/-- The kind label is recognized and the kind-specific params it reads are
present. -/
def kindKeysOK (pb : PBlock) : Bool :=
  if pb.mtype = chars "Temp" then
    (dictLookup (chars "wanted") pb.params).isSome &&
    (dictLookup (chars "warning") pb.params).isSome &&
    (dictLookup (chars "offset") pb.params).isSome &&
    (dictLookup (chars "UsedPwms") pb.params).isSome
  else if pb.mtype = chars "Pwm" then
    (dictLookup (chars "minimum") pb.params).isSome &&
    (dictLookup (chars "maximum") pb.params).isSome &&
    (dictLookup (chars "variate") pb.params).isSome
  else
    decide (pb.mtype = chars "Fan") || decide (pb.mtype = chars "Volt")

/-- Well-formedness of a parsed block with respect to the catalog loop: the
keys the loop reads on the paths it takes are present, and an included
block has a recognized kind. -/
def blockWF (pb : PBlock) : Bool :=
  match dictLookup (chars "active") pb.params with
  | none => false
  | some a =>
    if pyTruthy a then
      match dictLookup (chars "logged") pb.params with
      | none => false
      | some lg =>
        if pyTruthy lg then
          (dictLookup (chars "name") pb.params).isSome && kindKeysOK pb
        else true
    else true

/-- A parsed, included temperature block named `A`. -/
def c7pb1 : PBlock :=
  ⟨chars "chipA", chars "Temp", 0,
    [(chars "active", .bool true), (chars "logged", .bool true),
     (chars "name", .str (chars "A")), (chars "wanted", .int 50),
     (chars "warning", .int 80), (chars "offset", .int 0),
     (chars "UsedPwms", .int 0)]⟩

/-- A parsed fan block that is logged but not active, hence excluded. -/
def c7pb2 : PBlock :=
  ⟨chars "chipB", chars "Fan", 1,
    [(chars "active", .bool false), (chars "logged", .bool true),
     (chars "name", .str (chars "B"))]⟩

/-- A parsed, included voltage block named `V`. -/
def c7pb3 : PBlock :=
  ⟨chars "chipC", chars "Volt", 2,
    [(chars "active", .bool true), (chars "logged", .bool true),
     (chars "name", .str (chars "V"))]⟩

/-- A two-row log file whose first row has a non-numeric cell for `A` and
whose second row is well-formed. -/
def c8file : LogFile :=
  ⟨0, [[(.str (chars "Seconds"), chars "1"), (.str (chars "A"), chars "abc")],
       [(.str (chars "Seconds"), chars "2"), (.str (chars "A"), chars "3.5")]]⟩

/-- An active, logged PWM block with no `minimum`, `maximum` or `variate`. -/
def c9block : List Char := chars "Pwm 0 from chip\nactive=true\nlogged=true\nname=P"

/-- The included PWM params of the C9 witness, lacking `minimum`. -/
def c9p0 : List (List Char × PyVal) :=
  [(chars "active", .bool true), (chars "logged", .bool true),
   (chars "name", .str (chars "P"))]

/-- The included Temperature params of the C9 witness, lacking `offset`. -/
def c9q0 : List (List Char × PyVal) :=
  [(chars "active", .bool true), (chars "logged", .bool true),
   (chars "name", .str (chars "T")), (chars "wanted", .int 50),
   (chars "warning", .int 80)]

/-- The parsing pipeline of `_parse_metric_block` without the leading
marker removal, used to state that the removal happens first, globally. -/
def parse_block_clean (block : List Char) : Except PyError PBlock :=
  match unpack2 (splitFrom ((splitCh '\n' (pyStrip block)).headD [])) with
  | .error e => .error e
  | .ok (metricIndex, source) =>
    match unpack2 (splitCh ' ' metricIndex) with
    | .error e => .error e
    | .ok (mtype, idxStr) =>
      match pyInt idxStr with
      | none => .error (.valueError (msgIntErr idxStr))
      | some idx =>
        match parseParams (splitCh '\n' (pyStrip block)).tail [] with
        | .error e => .error e
        | .ok ps => .ok ⟨source, mtype, idx, ps⟩

/-- A block with `xxx` embedded inside the kind label, the source, an
attribute key and attribute values. -/
def c10block : List Char :=
  chars "Pwmxxx 0 from chixxxp\nnaxxxme=P\nactive=truexxx\nlogged=true\nvariate=truexxx\nminimum=0\nmaximum=100"

/-- Claim C1: the claim says a row whose reconstructed timestamp is not
strictly after the watermark — including exact equality — is skipped and
emits no Point.  The code's row filter is `timestamp < last` (line 246), so
a row whose timestamp equals the watermark is emitted: with watermark
2024-01-01T00:00:10 and a row at elapsed seconds 10 of the file dated
2024-01-01, ingestion emits that row's Point, whose timestamp equals the
watermark.  This evaluates the embedded code at that failing input. -/
theorem c1_row_at_watermark_emitted :
    parse_logs (chars "°C") fxHdr fxMs c1last [c1file] = .ok [c1point] ∧
    c1point.time = c1last := by
  exact ⟨by decide, rfl⟩

/-- Claim C2: the claim says a second ingestion run over the same directory
with the same resolved watermark emits zero Points.  In the code, a first
run with the epoch watermark emits the point at timestamp 5; the store's
per-series last timestamp is then 5, so `find_last` resolves the second
run's watermark to 5; and the second run re-emits the very same Point,
because the row filter `timestamp < last` does not skip the row whose
timestamp equals the watermark.  This evaluates the embedded code at that
failing input: the second run's output is not zero Points. -/
theorem c2_second_run_reemits :
    parse_logs (chars "°C") fxHdr fxMs 0 [c2file] = .ok [c2point] ∧
    find_last [c2point.time] = c2point.time ∧
    parse_logs (chars "°C") fxHdr fxMs (find_last [c2point.time]) [c2file] =
      .ok [c2point] := by
  exact ⟨by decide, by decide, by decide⟩

/-- Claim C3: a log file whose filename-embedded base date is strictly
earlier than the watermark's calendar date (`logtime.date() < last.date()`,
a date-only comparison) is skipped whole: ingestion emits zero Points from
it regardless of its row contents.  And a file dated exactly on the
watermark's date is not skipped at file level: concretely, with watermark
instant 3 (date 0) the file dated day 0 is processed and its row at
timestamp 5 produces a Point. -/
theorem c3_file_date_skip (hdr : List PyVal) (ms : List (PyVal × Metric))
    (tU : List Char) (f : LogFile) (last : Int)
    (h : f.date < Int.fdiv last 86400) :
    parse_logs tU hdr ms last [f] = .ok [] ∧
    parse_logs (chars "°C") fxHdr fxMs 3 [c3file] = .ok [c3point] := by
  constructor
  · simp [parse_logs, h]
  · decide

/-- Witness for C3: the file dated day 1 (with a malformed row) is skipped
under watermark instant `2 * 86400` (date 2). -/
theorem c3_file_date_skip_witness :
    parse_logs (chars "°C") fxHdr fxMs (2 * 86400) [c3old] = .ok [] ∧
    parse_logs (chars "°C") fxHdr fxMs 3 [c3file] = .ok [c3point] :=
  c3_file_date_skip fxHdr fxMs (chars "°C") c3old (2 * 86400) (by decide)

/-- The accumulation step of `find_last` is the binary maximum. -/
theorem flStep (a b : Int) : (if a < b then b else a) = max a b := by
  rw [max_def]
  split_ifs <;> omega

/-- `find_last`'s fold computes a fold of `max`. -/
theorem foldl_max_eq (ls : List Int) (a : Int) :
    ls.foldl (fun x s => if x < s then s else x) a = ls.foldl max a := by
  induction ls generalizing a with
  | nil => rfl
  | cons b t ih => simp only [List.foldl_cons, flStep, ih]

/-- The start value bounds a `max` fold from below. -/
theorem le_foldl_max (ls : List Int) (a : Int) : a ≤ ls.foldl max a := by
  induction ls generalizing a with
  | nil => exact le_refl a
  | cons b t ih => exact le_trans (le_max_left a b) (ih (max a b))

/-- Every member bounds a `max` fold from below. -/
theorem mem_le_foldl_max (ls : List Int) (a t : Int) (ht : t ∈ ls) :
    t ≤ ls.foldl max a := by
  induction ls generalizing a with
  | nil => cases ht
  | cons b r ih =>
    rw [List.foldl_cons]
    rcases List.mem_cons.mp ht with rfl | hm
    · exact le_trans (le_max_right a t) (le_foldl_max r (max a t))
    · exact ih (max a b) hm

/-- A `max` fold returns its start value or a member of the list. -/
theorem foldl_max_mem (ls : List Int) (a : Int) :
    ls.foldl max a = a ∨ ls.foldl max a ∈ ls := by
  induction ls generalizing a with
  | nil => exact Or.inl rfl
  | cons b r ih =>
    rw [List.foldl_cons]
    rcases ih (max a b) with h | h
    · rcases max_choice a b with hab | hab
      · exact Or.inl (by rw [h, hab])
      · exact Or.inr (by rw [h, hab]; exact List.mem_cons_self b r)
    · exact Or.inr (List.mem_cons_of_mem b h)

/-- Claim C4: `find_last` reduces the per-series last timestamps returned
for this host to their maximum — each series last is bounded by the result
and the result is one of them — and when the store returned no series at
all for this host it is the zero/epoch instant rather than a failure.
Series with no rows for the host are absent from the query result, so they
contribute nothing.  Timestamps of stored points are at or after the
epoch, hence the non-negativity hypothesis. -/
theorem c4_find_last_max_or_epoch (lasts : List Int) (h : ∀ t ∈ lasts, 0 ≤ t) :
    (lasts = [] → find_last lasts = 0) ∧
    (∀ t ∈ lasts, t ≤ find_last lasts) ∧
    (lasts ≠ [] → find_last lasts ∈ lasts) := by
  refine ⟨fun he => by rw [he]; rfl, ?_, ?_⟩
  · intro t ht
    rw [find_last, foldl_max_eq]
    exact mem_le_foldl_max lasts 0 t ht
  · intro hne
    rw [find_last, foldl_max_eq]
    rcases foldl_max_mem lasts 0 with h0 | hm
    · match lasts, hne, h, h0 with
      | t :: ts, _, h, h0 =>
        have h1 : t ≤ (t :: ts).foldl max 0 := mem_le_foldl_max _ 0 t (List.mem_cons_self t ts)
        have h2 : 0 ≤ t := h t (List.mem_cons_self t ts)
        have h3 : t = 0 := le_antisymm (h0 ▸ h1) h2
        rw [h0, h3.symm]
        exact List.mem_cons_self t ts
    · exact hm

/-- Witness for C4: the maximum of the series lasts `[7, 3]` is 7. -/
theorem c4_find_last_witness :
    (∀ t ∈ ([7, 3] : List Int), 0 ≤ t) ∧
    ((∀ t ∈ ([7, 3] : List Int), t ≤ find_last [7, 3]) ∧
      (([7, 3] : List Int) ≠ [] → find_last [7, 3] ∈ [7, 3])) :=
  ⟨by decide, (c4_find_last_max_or_epoch [7, 3] (by decide)).2.1,
    (c4_find_last_max_or_epoch [7, 3] (by decide)).2.2⟩

/-- Claim C5 counterexample: the claim says a block whose first line lacks
` from ` raises a descriptive `ParseError` naming the offending block.  In
the code, `header.split(' from ')` yields one part and the two-name tuple
unpacking raises Python's generic `ValueError` with the fixed message
`not enough values to unpack (expected 2, got 1)`: the error names nothing
of the offending block (neither its header text `Temp 0` nor its kind
label occurs in the message). -/
theorem c5_error_does_not_name_block :
    parse_metric_block c5block = .error (.valueError msgNotEnough) ∧
    occursIn (chars "Temp 0") msgNotEnough = false ∧
    occursIn (chars "Temp") msgNotEnough = false := by
  decide

/-- Claim C5 as amended: for every block whose header line (the first line
after marker removal and stripping, exactly the string the code splits)
does not contain ` from ` — equivalently, splitting it on ` from ` yields
a single part — parsing always fails, with the generic unpacking
`ValueError`; the block is never silently skipped and no parse result
(hence no Metric) is ever produced from it. -/
theorem c5_missing_from_fails (block : List Char)
    (h : (splitFrom ((splitCh '\n' (pyStrip (removeXxx block))).headD [])).length = 1) :
    parse_metric_block block = .error (.valueError msgNotEnough) := by
  obtain ⟨x, hx⟩ := List.length_eq_one.mp h
  simp only [parse_metric_block, hx, unpack2]

/-- Witness for the amended C5 at the concrete block `c5block`. -/
theorem c5_missing_from_witness :
    (splitFrom ((splitCh '\n' (pyStrip (removeXxx c5block))).headD [])).length = 1 ∧
    parse_metric_block c5block = .error (.valueError msgNotEnough) :=
  ⟨by decide, c5_missing_from_fails c5block (by decide)⟩

/-- Claim C6: the claim says an active and logged block with an unrecognized
kind label makes catalog building fail with `UnknownMetricKind(label)` and
that no wrongly-typed Metric is ever stored under its name.  The code's
kind dispatch has no `else` branch, so for block `B` of kind `Gpu` the
loop-local `metric` variable still holds the previous block's dict:
catalog building succeeds and silently stores block `A`'s temperature
metric under the name `B` — a wrongly-typed, wrongly-named Metric.  When
no previous block assigned the variable, the code raises `NameError`
(also not `UnknownMetricKind`).  This evaluates the embedded code at both
failing inputs. -/
theorem c6_unknown_kind_stores_stale_metric :
    getMetricsRaw (chars "°C") (chars "h") [c6b1, c6b2] =
      .ok ⟨[.str (chars "Seconds"), .str (chars "A"), .str (chars "B")],
        [(.str (chars "A"), c6metric), (.str (chars "B"), c6metric)],
        some c6metric⟩ ∧
    c6metric.metric = .str (chars "A") ∧
    c6metric.mtype = chars "temp" ∧
    getMetricsRaw (chars "°C") (chars "h") [c6b2] = .error (.nameError (chars "metric")) := by
  refine ⟨by decide, rfl, rfl, by decide⟩

/-- Inserting a key not yet in the dict appends the binding. -/
theorem dictInsert_fresh {α β : Type} [DecidableEq α] (k : α) (v : β)
    (d : List (α × β)) (h : k ∉ dictKeys d) : dictInsert k v d = d ++ [(k, v)] := by
  induction d with
  | nil => rfl
  | cons p t ih =>
    obtain ⟨k', v'⟩ := p
    rw [dictKeys, List.map_cons, List.mem_cons] at h
    push_neg at h
    rw [dictInsert, if_neg (fun he => h.1 he.symm), List.cons_append]
    exact congrArg _ (ih (by rw [dictKeys]; exact h.2))

/-- With the kind-specific keys present, the kind dispatch builds a metric. -/
theorem mkMetricOpt_wf (tU hn : List Char) (pb : PBlock) (nv : PyVal)
    (hk : kindKeysOK pb = true) :
    ∃ m, mkMetricOpt tU hn pb.source pb.mtype pb.index nv pb.params = .ok (some m) := by
  rw [kindKeysOK] at hk
  by_cases h1 : pb.mtype = chars "Temp"
  · rw [if_pos h1] at hk
    simp only [Bool.and_eq_true, Option.isSome_iff_exists] at hk
    obtain ⟨⟨⟨⟨w, hw⟩, wa, hwa⟩, o, ho⟩, u, hu⟩ := hk
    refine ⟨{ mtype := chars "temp", function := .toFloat, chipset := pb.source,
              metric := nv, index := pb.index, units := some tU, hostname := hn,
              wanted := some w, warning := some wa, offset := some o,
              used_pwms := some u, minimum := none, maximum := none,
              variate := none }, ?_⟩
    rw [mkMetricOpt, if_pos h1]
    simp [getKey, hw, hwa, ho, hu]
  · by_cases h2 : pb.mtype = chars "Pwm"
    · rw [if_neg h1, if_pos h2] at hk
      simp only [Bool.and_eq_true, Option.isSome_iff_exists] at hk
      obtain ⟨⟨⟨mi, hmi⟩, ma, hma⟩, va, hva⟩ := hk
      refine ⟨{ mtype := chars "pwm", function := .toFloat, chipset := pb.source,
                metric := nv, index := pb.index, units := none, hostname := hn,
                wanted := none, warning := none, offset := none, used_pwms := none,
                minimum := some mi, maximum := some ma, variate := some va }, ?_⟩
      rw [mkMetricOpt, if_neg h1, if_pos h2]
      simp [getKey, hmi, hma, hva]
    · rw [if_neg h1, if_neg h2] at hk
      simp only [Bool.or_eq_true, decide_eq_true_eq] at hk
      rcases hk with h3 | h3
      · refine ⟨{ mtype := chars "fan", function := .toInt, chipset := pb.source,
                  metric := nv, index := pb.index, units := none, hostname := hn,
                  wanted := none, warning := none, offset := none, used_pwms := none,
                  minimum := none, maximum := none, variate := none }, ?_⟩
        rw [mkMetricOpt, if_neg h1, if_neg h2, if_pos h3]
      · have h4 : ¬ pb.mtype = chars "Fan" := by rw [h3]; decide
        refine ⟨{ mtype := chars "volt", function := .toFloat, chipset := pb.source,
                  metric := nv, index := pb.index, units := none, hostname := hn,
                  wanted := none, warning := none, offset := none, used_pwms := none,
                  minimum := none, maximum := none, variate := none }, ?_⟩
        rw [mkMetricOpt, if_neg h1, if_neg h2, if_neg h4, if_pos h3]

/-- On a well-formed block, one catalog loop iteration appends the block's
name to the header and stores the block's own metric under it when the
block is included, and leaves the state unchanged otherwise. -/
theorem processBlock_wf (tU hn : List Char) (st : GMState) (pb : PBlock)
    (hwf : blockWF pb = true) :
    processBlock tU hn st pb =
      if includedB pb then
        .ok ⟨st.header ++ [nameOf pb],
          dictInsert (nameOf pb) (metricOfD tU hn pb) st.metrics,
          some (metricOfD tU hn pb)⟩
      else .ok st := by
  rw [blockWF] at hwf
  cases hA : dictLookup (chars "active") pb.params with
  | none => rw [hA] at hwf; simp at hwf
  | some a =>
    simp only [hA] at hwf
    by_cases hta : pyTruthy a = true
    · rw [if_pos hta] at hwf
      cases hL : dictLookup (chars "logged") pb.params with
      | none => rw [hL] at hwf; simp at hwf
      | some lg =>
        simp only [hL] at hwf
        by_cases htl : pyTruthy lg = true
        · rw [if_pos htl] at hwf
          simp only [Bool.and_eq_true, Option.isSome_iff_exists] at hwf
          obtain ⟨⟨nv, hnv⟩, hkk⟩ := hwf
          have hnm : nameOf pb = nv := by rw [nameOf, hnv]; rfl
          obtain ⟨m, hm⟩ := mkMetricOpt_wf tU hn pb (nameOf pb) hkk
          have hib : includedB pb = true := by
            simp only [includedB, hA, hL, hta, htl, Bool.and_self]
          have hmd : metricOfD tU hn pb = m := by rw [metricOfD, hm]
          rw [hnm] at hm
          simp only [processBlock, getKey, hA, hL, hnv, if_pos hta, if_pos htl, hm,
            hib, if_true, hmd, hnm]
        · have hltf : pyTruthy lg = false := by
            cases h : pyTruthy lg
            · rfl
            · exact absurd h htl
          have hib : includedB pb = false := by
            simp only [includedB, hA, hL, hltf, Bool.and_false]
          simp only [processBlock, getKey, hA, hL, if_pos hta, if_neg htl, hib,
            Bool.false_eq_true, if_false]
    · have hltf : pyTruthy a = false := by
        cases h : pyTruthy a
        · rfl
        · exact absurd h hta
      have hib : includedB pb = false := by
        simp only [includedB, hA, hltf, Bool.false_and]
      simp only [processBlock, getKey, hA, if_neg hta, hib, Bool.false_eq_true,
        if_false]

/-- Folding the catalog loop over well-formed blocks with distinct included
names appends exactly the included names to the header and exactly one
catalog entry per included block, in encounter order. -/
theorem foldGM_wf (tU hn : List Char) (pbs : List PBlock) :
    ∀ (st : GMState), (∀ pb ∈ pbs, blockWF pb = true) →
    ((pbs.filter includedB).map nameOf).Nodup →
    (∀ pb ∈ pbs.filter includedB, nameOf pb ∉ dictKeys st.metrics) →
    ∃ v, foldGM tU hn st pbs =
      .ok ⟨st.header ++ (pbs.filter includedB).map nameOf,
           st.metrics ++ (pbs.filter includedB).map (catEntry tU hn), v⟩ := by
  induction pbs with
  | nil =>
    intro st _ _ _
    exact ⟨st.metricVar, by simp [foldGM]⟩
  | cons pb rest ih =>
    intro st hwf hnd hfresh
    rw [foldGM, processBlock_wf tU hn st pb (hwf pb (List.mem_cons_self pb rest))]
    by_cases hinc : includedB pb = true
    · have hfil : (pb :: rest).filter includedB = pb :: rest.filter includedB := by
        simp [List.filter_cons, hinc]
      rw [if_pos hinc]
      have hf0 : nameOf pb ∉ dictKeys st.metrics := by
        apply hfresh
        rw [hfil]
        exact List.mem_cons_self pb _
      have hins : dictInsert (nameOf pb) (metricOfD tU hn pb) st.metrics =
          st.metrics ++ [(nameOf pb, metricOfD tU hn pb)] :=
        dictInsert_fresh _ _ _ hf0
      rw [hfil] at hnd
      rw [List.map_cons, List.nodup_cons] at hnd
      obtain ⟨hn1, hn2⟩ := hnd
      obtain ⟨v, hv⟩ := ih ⟨st.header ++ [nameOf pb],
          dictInsert (nameOf pb) (metricOfD tU hn pb) st.metrics,
          some (metricOfD tU hn pb)⟩
        (fun q hq => hwf q (List.mem_cons_of_mem pb hq))
        hn2
        (by
          intro q hq
          show nameOf q ∉ dictKeys (dictInsert (nameOf pb) (metricOfD tU hn pb) st.metrics)
          rw [hins, dictKeys, List.map_append, List.mem_append]
          push_neg
          constructor
          · exact hfresh q (by rw [hfil]; exact List.mem_cons_of_mem pb hq)
          · simp only [List.map_cons, List.map_nil, List.mem_singleton]
            intro he
            exact hn1 (he ▸ List.mem_map_of_mem nameOf hq))
      refine ⟨v, ?_⟩
      show foldGM tU hn ⟨st.header ++ [nameOf pb],
          dictInsert (nameOf pb) (metricOfD tU hn pb) st.metrics,
          some (metricOfD tU hn pb)⟩ rest = _
      rw [hv, hfil, List.map_cons, List.map_cons, hins]
      simp [List.append_assoc, List.singleton_append, catEntry]
    · rw [if_neg hinc]
      have hfil : (pb :: rest).filter includedB = rest.filter includedB := by
        simp [List.filter_cons, hinc]
      rw [hfil] at hnd
      rw [hfil]
      exact ih st (fun q hq => hwf q (List.mem_cons_of_mem pb hq)) hnd
        (fun q hq => hfresh q (by rw [hfil]; exact hq))

/-- Claim C7: over any sequence of parsed config blocks (well-formed for the
loop, with the included blocks' names pairwise distinct), the built catalog
contains exactly one Metric per block whose attributes are truthy for both
`active` and `logged` — each included block's name mapped to its own
block's metric, and nothing else — and the header equals the
elapsed-seconds column name `Seconds` followed by those blocks' names in
block-encounter order. -/
theorem c7_catalog_exactly_included (tU hn : List Char) (pbs : List PBlock)
    (hwf : ∀ pb ∈ pbs, blockWF pb = true)
    (hnd : ((pbs.filter includedB).map nameOf).Nodup) :
    (getMetricsParsed tU hn pbs).map (fun st => (st.header, st.metrics)) =
      .ok (PyVal.str (chars "Seconds") :: (pbs.filter includedB).map nameOf,
        (pbs.filter includedB).map (catEntry tU hn)) := by
  obtain ⟨v, hv⟩ := foldGM_wf tU hn pbs initGM hwf hnd
    (by intro pb hpb; simp [initGM, dictKeys])
  rw [getMetricsParsed, hv]
  simp [initGM, Except.map]

/-- Witness for C7 on three concrete blocks (two included, one inactive). -/
theorem c7_catalog_witness :
    (∀ pb ∈ [c7pb1, c7pb2, c7pb3], blockWF pb = true) ∧
    (getMetricsParsed (chars "°C") (chars "h") [c7pb1, c7pb2, c7pb3]).map
        (fun st => (st.header, st.metrics)) =
      .ok (PyVal.str (chars "Seconds") ::
            ([c7pb1, c7pb2, c7pb3].filter includedB).map nameOf,
        ([c7pb1, c7pb2, c7pb3].filter includedB).map
          (catEntry (chars "°C") (chars "h"))) :=
  ⟨by decide,
    c7_catalog_exactly_included (chars "°C") (chars "h") [c7pb1, c7pb2, c7pb3]
      (by decide) (by decide)⟩

/-- Claim C8 counterexample: the claim says a failed cell coercion is
logged and skipped and the run continues with the remaining cells and
rows.  In the code, `float('abc')` raises an uncaught `ValueError`, so the
whole run aborts: nothing is emitted — not even the following well-formed
row — instead of one Point for the surviving row. -/
theorem c8_bad_cell_aborts_run :
    parse_logs (chars "°C") fxHdr fxMs 0 [c8file] =
      .error (.valueError (msgFloatErr (chars "abc"))) := by
  decide

/-- Claim C8 as amended: the implemented policy is strict, not
skip-and-log: whenever ingestion reaches a cell whose coercion to float
fails (the file not date-skipped, the row not time-skipped, metric and
cell present), the whole run aborts with the `float()` `ValueError` — no
Point of any later row or file is emitted, and zero is never substituted. -/
theorem c8_strict_abort (tU : List Char) (h0 nm : PyVal) (m : Metric)
    (ms : List (PyVal × Metric)) (d secs last : Int) (sstr cell : List Char)
    (row : List (PyVal × List Char)) (rows : List (List (PyVal × List Char)))
    (hdate : ¬ d < Int.fdiv last 86400)
    (hsec : dictLookup (PyVal.str (chars "Seconds")) row = some sstr)
    (hsecs : pyInt sstr = some secs)
    (hts : ¬ d * 86400 + secs < last)
    (hm : dictLookup nm ms = some m)
    (hfn : m.function = .toFloat)
    (hcell : dictLookup nm row = some cell)
    (hbad : pyFloatValid cell = false) :
    parse_logs tU [h0, nm] ms last [⟨d, row :: rows⟩] =
      .error (.valueError (msgFloatErr cell)) := by
  simp only [parse_logs, if_neg hdate, processFile, processRows, processRow,
    hsec, hsecs, if_neg hts, List.tail_cons, processCells, hm, hcell,
    coerceCell, hfn, hbad, Bool.false_eq_true, if_false]

/-- Witness for the amended C8 at the concrete bad-cell file. -/
theorem c8_strict_abort_witness :
    (pyFloatValid (chars "abc") = false ∧ fxMetric.function = .toFloat) ∧
    parse_logs (chars "°C") fxHdr fxMs 0 [c8file] =
      .error (.valueError (msgFloatErr (chars "abc"))) :=
  ⟨⟨by decide, rfl⟩,
    c8_strict_abort (chars "°C") (.str (chars "Seconds")) (.str (chars "A"))
      fxMetric fxMs 0 1 0 (chars "1") (chars "abc")
      [(.str (chars "Seconds"), chars "1"), (.str (chars "A"), chars "abc")]
      [[(.str (chars "Seconds"), chars "2"), (.str (chars "A"), chars "3.5")]]
      (by decide) (by decide) (by decide) (by decide) (by decide) rfl
      (by decide) (by decide)⟩

/-- Claim C9 counterexample: the claim says a PWM block lacking
`minimum`/`maximum`/`variate` still yields a Metric with defaults
`minimum=0, maximum=100, variate=false`.  The code reads
`params['minimum']` directly (line 186), so catalog building fails with
`KeyError('minimum')` and no Metric is produced. -/
theorem c9_missing_minimum_fails :
    getMetricsRaw (chars "°C") (chars "h") [c9block] =
      .error (.keyError (.str (chars "minimum"))) := by
  decide

/-- Claim C9 as amended: catalog building applies no defaults for the
kind-specific attributes.  An included PWM block lacking `minimum` fails
with `KeyError('minimum')` (the first key the dict literal reads) instead
of defaulting it to 0, and an included Temperature block lacking `offset`
(with `wanted` and `warning` present) fails with `KeyError('offset')`
instead of defaulting it to 0; no Metric is produced for such blocks. -/
theorem c9_no_defaults (tU hn : List Char) (st : GMState) (src : List Char)
    (idx : Int) (p q : List (List Char × PyVal)) (a lg nv aq lq nq wq wrq : PyVal) :
    (dictLookup (chars "active") p = some a → pyTruthy a = true →
     dictLookup (chars "logged") p = some lg → pyTruthy lg = true →
     dictLookup (chars "name") p = some nv →
     dictLookup (chars "minimum") p = none →
     processBlock tU hn st ⟨src, chars "Pwm", idx, p⟩ =
       .error (.keyError (.str (chars "minimum")))) ∧
    (dictLookup (chars "active") q = some aq → pyTruthy aq = true →
     dictLookup (chars "logged") q = some lq → pyTruthy lq = true →
     dictLookup (chars "name") q = some nq →
     dictLookup (chars "wanted") q = some wq →
     dictLookup (chars "warning") q = some wrq →
     dictLookup (chars "offset") q = none →
     processBlock tU hn st ⟨src, chars "Temp", idx, q⟩ =
       .error (.keyError (.str (chars "offset")))) := by
  constructor
  · intro hA hta hL htl hN hmin
    simp only [processBlock, getKey, hA, if_pos hta, hL, if_pos htl, hN]
    rw [mkMetricOpt, if_neg (by decide : ¬ (chars "Pwm" = chars "Temp")),
      if_pos rfl]
    simp only [getKey, hmin]
  · intro hA hta hL htl hN hw hwa hoff
    simp only [processBlock, getKey, hA, if_pos hta, hL, if_pos htl, hN]
    rw [mkMetricOpt, if_pos rfl]
    simp only [getKey, hw, hwa, hoff]

/-- Witness for the amended C9 at concrete PWM and Temperature blocks. -/
theorem c9_no_defaults_witness :
    processBlock (chars "°C") (chars "h") initGM ⟨chars "chip", chars "Pwm", 0, c9p0⟩ =
      .error (.keyError (.str (chars "minimum"))) ∧
    processBlock (chars "°C") (chars "h") initGM ⟨chars "chip", chars "Temp", 0, c9q0⟩ =
      .error (.keyError (.str (chars "offset"))) :=
  ⟨(c9_no_defaults (chars "°C") (chars "h") initGM (chars "chip") 0 c9p0 c9q0
      (.bool true) (.bool true) (.str (chars "P")) (.bool true) (.bool true)
      (.str (chars "T")) (.int 50) (.int 80)).1
      (by decide) rfl (by decide) rfl (by decide) (by decide),
   (c9_no_defaults (chars "°C") (chars "h") initGM (chars "chip") 0 c9p0 c9q0
      (.bool true) (.bool true) (.str (chars "P")) (.bool true) (.bool true)
      (.str (chars "T")) (.int 50) (.int 80)).2
      (by decide) rfl (by decide) rfl (by decide) (by decide) (by decide) (by decide)⟩

/-- Claim C10: block parsing deletes every occurrence of `xxx` anywhere in
the block before splitting lines and `key=value` pairs — parsing any block
equals parsing its `xxx`-stripped text — so `xxx` inside keys and values
is silently removed: the block with `naxxxme=P`, `variate=truexxx` and
kind `Pwmxxx` parses exactly like its clean counterpart, with the value
`truexxx` parsed as boolean `true`. -/
theorem c10_xxx_removed_everywhere :
    (∀ block : List Char, parse_metric_block block = parse_block_clean (removeXxx block)) ∧
    parse_metric_block c10block =
      .ok ⟨chars "chip", chars "Pwm", 0,
        [(chars "name", .str (chars "P")), (chars "active", .bool true),
         (chars "logged", .bool true), (chars "variate", .bool true),
         (chars "minimum", .int 0), (chars "maximum", .int 100)]⟩ ∧
    parse_metric_block c10block =
      parse_metric_block
        (chars "Pwm 0 from chip\nname=P\nactive=true\nlogged=true\nvariate=true\nminimum=0\nmaximum=100") :=
  ⟨fun _ => rfl, by decide, by decide⟩
